import Mathlib

set_option maxHeartbeats 1000000

/-- Mutation keys are array-shaped; modelled as lists of strings. -/
abbrev MutationKey := List String

/-- Status of a mutation: idle, loading, success or error (spec section 3; mutation.ts is not under src/). -/
inductive MutationStatus
  | idle
  | loading
  | success
  | error
  deriving DecidableEq, Repr

/-- State fields owned by a Mutation (spec section 3). -/
structure MutationState (D E V C : Type) where
  status : MutationStatus
  isPaused : Bool
  data : Option D
  error : Option E
  vars : Option V
  context : Option C
  deriving DecidableEq, Repr

/-- Modelled from the spec: getDefaultState from mutation.ts (not under src/) is the default idle view: idle status, not paused, no payloads (spec sections 3 and 4.3). -/
def getDefaultState {D E V C : Type} : MutationState D E V C :=
  { status := MutationStatus.idle, isPaused := false,
    data := none, error := none, vars := none, context := none }

/-- Options relevant to mutation identity and vars (types.ts is not under src/; fields taken from their uses in mutationCache.ts and the observer). -/
structure MutationOptions (V : Type) where
  shareable : Option Bool
  mutationKey : Option MutationKey
  vars : Option V
  deriving DecidableEq, Repr

/-- Modelled from the spec: the identity hash from utils.ts (not under src/) is deterministic, with equal inputs yielding equal hashes (spec section 6); modelled as the key itself, which satisfies all stated hash properties. -/
def hashMutationKeyByOptions {V : Type} (key : MutationKey) (_options : MutationOptions V) : MutationKey :=
  key

/-- One Mutation as stored by the cache: id, optional hash, state, and the observer back-reference set (observers identified by numeric ids). -/
structure MutationRec (D E V C : Type) where
  mutationId : Nat
  mutationHash : Option MutationKey
  state : MutationState D E V C
  observers : List Nat
  deriving DecidableEq, Repr

/-- The MutationCache state (mutationCache.ts lines 32-45): ordered collection, hash index, and the id counter. -/
structure MutationCache (D E V C : Type) where
  mutations : List (MutationRec D E V C)
  mutationsMap : List (MutationKey × Nat)
  mutationId : Nat
  deriving DecidableEq, Repr

/-- Observable events emitted by cache operations, including scheduler batch markers. -/
inductive CacheEv
  | removedFromList (mid : Nat)
  | removedFromMap (h : MutationKey)
  | cancel (mid : Nat)
  | batchEnter
  | batchExit
  | notified (mid : Option Nat)
  | continued (mid : Nat) (ok : Bool)
  deriving DecidableEq, Repr

/-- Replacement write into the hash index, mirroring assignment to a JS object key. -/
def mapSet (m : List (MutationKey × Nat)) (h : MutationKey) (v : Nat) : List (MutationKey × Nat) :=
  m.filter (fun e => e.1 != h) ++ [(h, v)]

/-- Deletion from the hash index, mirroring the JS delete operator. -/
def mapDelete (m : List (MutationKey × Nat)) (h : MutationKey) : List (MutationKey × Nat) :=
  m.filter (fun e => e.1 != h)

/-- MutationCache.notify (mutationCache.ts lines 124-130): broadcast to cache-level listeners inside a scheduler batch; the scheduler (notifyManager.ts, not under src/) is modelled from the spec by batch-enter and batch-exit trace markers. -/
def MutationCache.notify {D E V C : Type} (_c : MutationCache D E V C) (mid : Option Nat) : List CacheEv :=
  [CacheEv.batchEnter, CacheEv.notified mid, CacheEv.batchExit]

/-- MutationCache.add (mutationCache.ts lines 76-79): push onto the ordered collection, then notify. -/
def MutationCache.add {D E V C : Type} (c : MutationCache D E V C) (m : MutationRec D E V C) :
    MutationCache D E V C × List CacheEv :=
  let c1 := { c with mutations := c.mutations ++ [m] }
  (c1, MutationCache.notify c1 (some m.mutationId))

/-- MutationCache.build (mutationCache.ts lines 47-74): compute the hash for shareable keyed options, assign a fresh id, construct and add the Mutation, and register the hash-index entry. QueryClient.defaultMutationOptions and getMutationDefaults (queryClient.ts, not under src/) are modelled from the spec as a merge with empty client defaults, which returns the options unchanged. -/
def MutationCache.build {D E V C : Type} (c : MutationCache D E V C)
    (options : MutationOptions V) (state : Option (MutationState D E V C)) :
    MutationCache D E V C × MutationRec D E V C :=
  let mutationHash : Option MutationKey :=
    match options.shareable, options.mutationKey with
    | some true, some key => some (hashMutationKeyByOptions key options)
    | _, _ => none
  let mutation : MutationRec D E V C :=
    { mutationId := c.mutationId + 1
      mutationHash := mutationHash
      state := state.getD getDefaultState
      observers := [] }
  let c0 := { c with mutationId := c.mutationId + 1 }
  let c1 := (MutationCache.add c0 mutation).1
  let c2 :=
    match mutationHash with
    | some h => { c1 with mutationsMap := mapSet c1.mutationsMap h mutation.mutationId }
    | none => c1
  (c2, mutation)

/-- MutationCache.remove (mutationCache.ts lines 81-90): filter the Mutation out of the ordered collection, delete its hash-index entry when hashed, then call cancel, then notify. Mutation.cancel (mutation.ts, not under src/) is modelled from the spec as an abort signal, recorded as a trace event. -/
def MutationCache.remove {D E V C : Type} (c : MutationCache D E V C) (m : MutationRec D E V C) :
    MutationCache D E V C × List CacheEv :=
  let c1 := { c with mutations := c.mutations.filter (fun x => x.mutationId != m.mutationId) }
  let p :=
    match m.mutationHash with
    | some h => ({ c1 with mutationsMap := mapDelete c1.mutationsMap h }, [CacheEv.removedFromMap h])
    | none => (c1, ([] : List CacheEv))
  (p.1, CacheEv.removedFromList m.mutationId :: p.2 ++
    CacheEv.cancel m.mutationId :: MutationCache.notify p.1 (some m.mutationId))

/-- Helper for MutationCache.clear: forEach over the snapshot of the array taken at entry, threading the cache through each removal and concatenating the traces. -/
def MutationCache.clearGo {D E V C : Type} :
    List (MutationRec D E V C) → MutationCache D E V C → MutationCache D E V C × List CacheEv
  | [], c => (c, [])
  | m :: rest, c =>
    let p := MutationCache.remove c m
    let q := MutationCache.clearGo rest p.1
    (q.1, p.2 ++ q.2)

/-- MutationCache.clear (mutationCache.ts lines 92-98): remove every mutation inside one outer scheduler batch. -/
def MutationCache.clear {D E V C : Type} (c : MutationCache D E V C) :
    MutationCache D E V C × List CacheEv :=
  let p := MutationCache.clearGo c.mutations c
  (p.1, CacheEv.batchEnter :: (p.2 ++ [CacheEv.batchExit]))

/-- MutationCache.getAll (mutationCache.ts lines 100-102). -/
def MutationCache.getAll {D E V C : Type} (c : MutationCache D E V C) : List (MutationRec D E V C) :=
  c.mutations

/-- MutationCache.get (mutationCache.ts lines 104-108): hash-index lookup, returning the mutation id registered for the hash. -/
def MutationCache.get {D E V C : Type} (c : MutationCache D E V C) (h : MutationKey) : Option Nat :=
  (c.mutationsMap.find? (fun e => e.1 == h)).map (fun e => e.2)

/-- Modelled from the spec: Mutation.continue (mutation.ts, not under src/) resumes a paused mutation and may reject; the outcome for each mutation id is supplied by the oracle f. -/
def continueMutation (f : Nat → Bool) (mid : Nat) : Except String Unit :=
  if f mid then Except.ok () else Except.error "continue failed"

/-- One step of the sequential resume chain (mutationCache.ts lines 143-147): promise.then runs the next continue only after the previous settled, and catch with noop swallows a rejection. -/
def resumeStep {D E V C : Type} (f : Nat → Bool) (acc : Except String Unit × List CacheEv)
    (m : MutationRec D E V C) : Except String Unit × List CacheEv :=
  match acc.1 with
  | Except.ok _ =>
    let swallowed : Except String Unit :=
      match continueMutation f m.mutationId with
      | Except.error _ => Except.ok ()
      | r => r
    (swallowed, acc.2 ++ [CacheEv.continued m.mutationId (f m.mutationId)])
  | e => (e, acc.2)

/-- MutationCache.resumePausedMutations (mutationCache.ts lines 140-149): snapshot the paused mutations, chain continue sequentially with each rejection swallowed, inside one scheduler batch. -/
def MutationCache.resumePausedMutations {D E V C : Type} (c : MutationCache D E V C)
    (f : Nat → Bool) : Except String Unit × List CacheEv :=
  let pausedMutations := c.mutations.filter (fun x => x.state.isPaused)
  let p := pausedMutations.foldl (resumeStep f) (Except.ok (), [])
  (p.1, CacheEv.batchEnter :: (p.2 ++ [CacheEv.batchExit]))

/-- MutationCache.onFocus (mutationCache.ts lines 132-134). -/
def MutationCache.onFocus {D E V C : Type} (c : MutationCache D E V C) (f : Nat → Bool) :
    Except String Unit × List CacheEv :=
  MutationCache.resumePausedMutations c f

/-- MutationCache.onOnline (mutationCache.ts lines 136-138). -/
def MutationCache.onOnline {D E V C : Type} (c : MutationCache D E V C) (f : Nat → Bool) :
    Except String Unit × List CacheEv :=
  MutationCache.resumePausedMutations c f

/-- Modelled from the spec: the notification scheduler (notifyManager.ts, not under src/) is depth-counted and flushes exactly when the outermost batch unwinds (spec sections 2 and 5). This counts, along a trace, the batch exits that return the depth to zero. -/
def flushes : List CacheEv → Nat → Nat
  | [], _ => 0
  | CacheEv.batchEnter :: t, d => flushes t (d + 1)
  | CacheEv.batchExit :: t, d => (if d = 1 then 1 else 0) + flushes t (d - 1)
  | _ :: t, d => flushes t d

/-- Call-scoped callback bundle passed to mutate (MutateOptions in types.ts, not under src/); modelled by which of the three callbacks are present. -/
structure MutateOptions where
  hasOnSuccess : Bool
  hasOnError : Bool
  hasOnSettled : Bool
  deriving DecidableEq, Repr

/-- NotifyOptions (part_000 lines 18-22): which notification categories to dispatch; absent fields are falsy. -/
structure NotifyOptions where
  listeners : Bool := false
  onError : Bool := false
  onSuccess : Bool := false
  deriving DecidableEq, Repr

/-- The derived observer result (part_000 lines 169-177); the identity-stable mutate and reset closures are omitted from the record. -/
structure MutationObserverResult (D E V C : Type) where
  status : MutationStatus
  isPaused : Bool
  data : Option D
  error : Option E
  vars : Option V
  context : Option C
  isLoading : Bool
  isSuccess : Bool
  isError : Bool
  isIdle : Bool
  deriving DecidableEq, Repr

/-- Observable callback invocations dispatched by MutationObserver.notify, in dispatch order. -/
inductive ObsEv (D E V C : Type)
  | onSuccessCb (data : Option D) (vs : Option V) (ctx : Option C)
  | onErrorCb (err : Option E) (vs : Option V) (ctx : Option C)
  | onSettledCb (data : Option D) (err : Option E) (vs : Option V) (ctx : Option C)
  | listenerCall (res : MutationObserverResult D E V C)
  deriving DecidableEq, Repr

/-- The MutationObserver state (part_000 lines 26-56): its identity oid, current effective options, the bound Mutation reference (an id resolved through the cache, spec section 9), the active call-scoped callback bundle, the cached derived result, and the generic listener count. -/
structure MutationObserver (D E V C : Type) where
  oid : Nat
  options : Option (MutationOptions V)
  currentMutation : Option Nat
  mutateOptions : Option MutateOptions
  currentResult : MutationObserverResult D E V C
  listeners : Nat
  deriving DecidableEq, Repr

/-- Derivation of the observer result from a mutation state (part_000 lines 169-177). -/
def deriveResult {D E V C : Type} (s : MutationState D E V C) : MutationObserverResult D E V C :=
  { status := s.status, isPaused := s.isPaused, data := s.data, error := s.error,
    vars := s.vars, context := s.context,
    isLoading := s.status == MutationStatus.loading,
    isSuccess := s.status == MutationStatus.success,
    isError := s.status == MutationStatus.error,
    isIdle := s.status == MutationStatus.idle }

/-- Lookup of a mutation record by id in the cache's ordered collection. -/
def findMutation {D E V C : Type} (c : MutationCache D E V C) (mid : Nat) :
    Option (MutationRec D E V C) :=
  c.mutations.find? (fun m => m.mutationId == mid)

/-- MutationObserver.updateResult (part_000 lines 164-178): recompute the derived result from the bound mutation's state, or from the default idle state when unbound. -/
def MutationObserver.updateResult {D E V C : Type} (c : MutationCache D E V C)
    (o : MutationObserver D E V C) : MutationObserver D E V C :=
  let state :=
    match o.currentMutation with
    | some mid =>
      match findMutation c mid with
      | some m => m.state
      | none => getDefaultState
    | none => getDefaultState
  { o with currentResult := deriveResult state }

/-- Modelled from the spec: Mutation.addObserver (mutation.ts, not under src/) registers an observer in the Mutation's back-reference set (spec sections 4.1 and 3). -/
def addObserverTo {D E V C : Type} (c : MutationCache D E V C) (mid oid : Nat) :
    MutationCache D E V C :=
  { c with mutations := c.mutations.map (fun m =>
      if m.mutationId == mid then
        if oid ∈ m.observers then m else { m with observers := m.observers ++ [oid] }
      else m) }

/-- Modelled from the spec: Mutation.removeObserver (mutation.ts, not under src/) removes an observer from the Mutation's back-reference set. -/
def removeObserverFrom {D E V C : Type} (c : MutationCache D E V C) (mid oid : Nat) :
    MutationCache D E V C :=
  { c with mutations := c.mutations.map (fun m =>
      if m.mutationId == mid then { m with observers := m.observers.filter (fun x => x != oid) }
      else m) }

/-- Modelled from the spec: QueryClient.defaultMutationOptions (queryClient.ts, not under src/) merges client-level defaults; with no defaults configured it returns the options unchanged, and undefined becomes the empty record. -/
def defaultMutationOptions {V : Type} (opts : Option (MutationOptions V)) : MutationOptions V :=
  opts.getD { shareable := none, mutationKey := none, vars := none }

/-- MutationObserver.updateSharedMutation (part_000 lines 77-103): shareable observers only; requires a key, else a configuration error; rebind when the cache entry for the hash differs from the current binding, updating both sides and recomputing the derived result. -/
def MutationObserver.updateSharedMutation {D E V C : Type} (c : MutationCache D E V C)
    (o : MutationObserver D E V C) :
    Except String (MutationCache D E V C × MutationObserver D E V C) :=
  let opts := defaultMutationOptions o.options
  if opts.shareable ≠ some true then Except.ok (c, o)
  else
    match opts.mutationKey with
    | none => Except.error "Shareable mutation requires mutationKey to be set"
    | some key =>
      let h := hashMutationKeyByOptions key opts
      let mutation := MutationCache.get c h
      if o.currentMutation = mutation then Except.ok (c, o)
      else
        let c1 :=
          match o.currentMutation with
          | some mid => removeObserverFrom c mid o.oid
          | none => c
        let o1 := { o with currentMutation := mutation }
        let c2 :=
          match mutation with
          | some mid => addObserverTo c1 mid o.oid
          | none => c1
        Except.ok (c2, MutationObserver.updateResult c2 o1)

/-- MutationObserver.setOptions (part_000 lines 63-75): store the defaulted options, fail when the shareable flag differs from the previously stored options (the comparison uses the raw incoming options), then re-resolve the shared binding. -/
def MutationObserver.setOptions {D E V C : Type} (c : MutationCache D E V C)
    (o : MutationObserver D E V C) (opts : Option (MutationOptions V)) :
    Except String (MutationCache D E V C × MutationObserver D E V C) :=
  let prevOptions := o.options
  let o1 := { o with options := some (defaultMutationOptions opts) }
  match prevOptions with
  | some p =>
    if p.shareable ≠ Option.bind opts (fun x => x.shareable) then
      Except.error "shareable cannot be changed"
    else MutationObserver.updateSharedMutation c o1
  | none => MutationObserver.updateSharedMutation c o1

/-- MutationObserver.onUnsubscribe (part_000 lines 105-109): when no generic listeners remain, detach from the bound Mutation; the observer's own reference is left in place. -/
def MutationObserver.onUnsubscribe {D E V C : Type} (c : MutationCache D E V C)
    (o : MutationObserver D E V C) : MutationCache D E V C × MutationObserver D E V C :=
  if o.listeners = 0 then
    match o.currentMutation with
    | some mid => (removeObserverFrom c mid o.oid, o)
    | none => (c, o)
  else (c, o)

/-- MutationObserver.notify (part_000 lines 180-218): inside one scheduler batch, first the call-scoped callbacks when a bundle is active (success or error category, then settled with the corresponding arguments), then every generic listener with the fresh derived result. -/
def MutationObserver.notify {D E V C : Type} (o : MutationObserver D E V C)
    (opts : NotifyOptions) : List (ObsEv D E V C) :=
  let r := o.currentResult
  let cbEvents : List (ObsEv D E V C) :=
    match o.mutateOptions with
    | some mo =>
      if opts.onSuccess then
        (if mo.hasOnSuccess then [ObsEv.onSuccessCb r.data r.vars r.context] else [])
          ++ (if mo.hasOnSettled then [ObsEv.onSettledCb r.data none r.vars r.context] else [])
      else if opts.onError then
        (if mo.hasOnError then [ObsEv.onErrorCb r.error r.vars r.context] else [])
          ++ (if mo.hasOnSettled then [ObsEv.onSettledCb none r.error r.vars r.context] else [])
      else []
    | none => []
  let listenerEvents : List (ObsEv D E V C) :=
    if opts.listeners then List.replicate o.listeners (ObsEv.listenerCall r) else []
  cbEvents ++ listenerEvents

/-- Modelled from the spec: the mutation state-change event types broadcast to observers (mutation.ts, not under src/; spec section 4.1). -/
inductive ActionType
  | started
  | success
  | error
  | pause
  | resume
  deriving DecidableEq, Repr

/-- MutationObserver.onMutationUpdate (part_000 lines 111-126): recompute the derived result, then map the event type to the notification categories and notify. -/
def MutationObserver.onMutationUpdate {D E V C : Type} (c : MutationCache D E V C)
    (o : MutationObserver D E V C) (action : ActionType) :
    MutationObserver D E V C × List (ObsEv D E V C) :=
  let o1 := MutationObserver.updateResult c o
  let notifyOptions : NotifyOptions :=
    match action with
    | ActionType.success => { listeners := true, onSuccess := true }
    | ActionType.error => { listeners := true, onError := true }
    | _ => { listeners := true }
  (o1, MutationObserver.notify o1 notifyOptions)

/-- MutationObserver.reset (part_000 lines 137-141): clear the observer's Mutation reference, recompute the derived result, and notify generic listeners only. -/
def MutationObserver.reset {D E V C : Type} (c : MutationCache D E V C)
    (o : MutationObserver D E V C) :
    MutationCache D E V C × MutationObserver D E V C × List (ObsEv D E V C) :=
  let o1 := MutationObserver.updateResult c { o with currentMutation := none }
  (c, o1, MutationObserver.notify o1 { listeners := true })

/-- MutationObserver.mutate (part_000 lines 143-162): store the call-scoped callback bundle, detach from the bound Mutation, ask the cache to build a brand-new Mutation (explicit variables override option-level variables), attach to it, and start execution (the execution loop is outside this layer, spec section 1). -/
def MutationObserver.mutate {D E V C : Type} (c : MutationCache D E V C)
    (o : MutationObserver D E V C) (vs : Option V) (options : Option MutateOptions) :
    MutationCache D E V C × MutationObserver D E V C × MutationRec D E V C :=
  let o1 := { o with mutateOptions := options }
  let c1 :=
    match o.currentMutation with
    | some mid => removeObserverFrom c mid o.oid
    | none => c
  let opts := defaultMutationOptions o.options
  let buildOptions :=
    { opts with vars := match vs with | some v => some v | none => opts.vars }
  let p := MutationCache.build c1 buildOptions none
  let o2 := { o1 with currentMutation := some p.2.mutationId }
  let c2 := addObserverTo p.1 p.2.mutationId o.oid
  (c2, o2, p.2)

/-- Binding invariant (spec section 3): whenever the observer holds a reference to a mutation present in the cache, it is registered in that mutation's observer set. -/
def ObsInv {D E V C : Type} (c : MutationCache D E V C) (o : MutationObserver D E V C) : Prop :=
  ∀ m ∈ c.mutations, o.currentMutation = some m.mutationId → o.oid ∈ m.observers

instance {D E V C : Type} (c : MutationCache D E V C) (o : MutationObserver D E V C) :
    Decidable (ObsInv c o) :=
  inferInstanceAs (Decidable (∀ m ∈ c.mutations, _ → _))

/-- Trace predicate: the event is a cancel. -/
def CacheEv.isCancel : CacheEv → Bool
  | CacheEv.cancel _ => true
  | _ => false

/-- Trace predicate: the event is a detachment from the ordered collection. -/
def CacheEv.isRemovedFromList : CacheEv → Bool
  | CacheEv.removedFromList _ => true
  | _ => false

/-- Trace predicate: the event is a detachment from the hash index. -/
def CacheEv.isRemovedFromMap : CacheEv → Bool
  | CacheEv.removedFromMap _ => true
  | _ => false

/-- An empty cache over Nat payloads, used as a concrete evaluation point. -/
def cacheNat0 : MutationCache Nat Nat Nat Nat :=
  { mutations := [], mutationsMap := [], mutationId := 0 }

/-- Concrete options with shareable set but no mutationKey. -/
def optsShareableNoKey : MutationOptions Nat :=
  { shareable := some true, mutationKey := none, vars := none }

/-- Concrete observer configured shareable without a key. -/
def obsNoKey : MutationObserver Nat Nat Nat Nat :=
  { oid := 5, options := some optsShareableNoKey, currentMutation := none,
    mutateOptions := none, currentResult := deriveResult getDefaultState, listeners := 0 }

/-- Claim C1 (amended): MutationCache.build with shareable true and no mutationKey does not fail; it constructs a hash-less Mutation, appends it to the ordered collection, and leaves the hash index unchanged. The shareable-without-key configuration error is thrown by MutationObserver.updateSharedMutation instead. -/
theorem build_shareable_without_key {D E V C : Type} (c : MutationCache D E V C)
    (opts : MutationOptions V) (o : MutationObserver D E V C)
    (hsh : opts.shareable = some true) (hk : opts.mutationKey = none)
    (ho : o.options = some opts) :
    (MutationCache.build c opts none).2.mutationHash = none ∧
    (MutationCache.build c opts none).1.mutations =
      c.mutations ++ [(MutationCache.build c opts none).2] ∧
    (MutationCache.build c opts none).1.mutationsMap = c.mutationsMap ∧
    MutationObserver.updateSharedMutation c o =
      Except.error "Shareable mutation requires mutationKey to be set" := by
  simp [MutationCache.build, MutationCache.add, MutationObserver.updateSharedMutation,
    defaultMutationOptions, hsh, hk, ho]

/-- Witness for build_shareable_without_key at a concrete input. -/
theorem build_shareable_without_key_witness :
    (optsShareableNoKey.shareable = some true ∧ optsShareableNoKey.mutationKey = none ∧
      obsNoKey.options = some optsShareableNoKey) ∧
    ((MutationCache.build cacheNat0 optsShareableNoKey none).2.mutationHash = none ∧
     (MutationCache.build cacheNat0 optsShareableNoKey none).1.mutations =
       cacheNat0.mutations ++ [(MutationCache.build cacheNat0 optsShareableNoKey none).2] ∧
     (MutationCache.build cacheNat0 optsShareableNoKey none).1.mutationsMap =
       cacheNat0.mutationsMap ∧
     MutationObserver.updateSharedMutation cacheNat0 obsNoKey =
       Except.error "Shareable mutation requires mutationKey to be set") :=
  ⟨⟨rfl, rfl, rfl⟩,
    build_shareable_without_key cacheNat0 optsShareableNoKey obsNoKey rfl rfl rfl⟩

/-- Claim C1 counterexample: at shareable true with no key, build does not fail and it does add a new hash-less Mutation to the cache, contradicting the claim that build throws and adds nothing. -/
theorem build_shareable_without_key_cex :
    (MutationCache.build cacheNat0 optsShareableNoKey none).1.mutations.length = 1 ∧
    (MutationCache.build cacheNat0 optsShareableNoKey none).2.mutationHash = none := by
  decide

/-- Claim C4 (amended): remove first detaches the Mutation from the ordered collection, then deletes its hash-index entry when hashed, and only then calls cancel, followed by the cache-level broadcast; cancel is not called before detachment. -/
theorem remove_detach_then_cancel {D E V C : Type} (c : MutationCache D E V C)
    (m : MutationRec D E V C) :
    (MutationCache.remove c m).1.mutations =
      c.mutations.filter (fun x => x.mutationId != m.mutationId) ∧
    (MutationCache.remove c m).2 =
      CacheEv.removedFromList m.mutationId ::
        ((match m.mutationHash with
          | some h => [CacheEv.removedFromMap h]
          | none => []) ++
         [CacheEv.cancel m.mutationId, CacheEv.batchEnter,
          CacheEv.notified (some m.mutationId), CacheEv.batchExit]) := by
  rcases m with ⟨mid, mh, st, obs⟩
  cases mh <;> simp [MutationCache.remove, MutationCache.notify]

/-- Concrete hashed mutation used to exhibit the remove ordering. -/
def mHashed : MutationRec Nat Nat Nat Nat :=
  { mutationId := 1, mutationHash := some ["k"], state := getDefaultState, observers := [] }

/-- Concrete cache holding mHashed with its index entry. -/
def cacheHashed : MutationCache Nat Nat Nat Nat :=
  { mutations := [mHashed], mutationsMap := [(["k"], 1)], mutationId := 1 }

/-- Claim C4 counterexample: in the trace of remove, the cancel event does not precede the detachment events; it follows the detachment from both the ordered collection and the hash index. -/
theorem remove_cancel_order_cex :
    ¬ ((MutationCache.remove cacheHashed mHashed).2.findIdx CacheEv.isCancel <
         (MutationCache.remove cacheHashed mHashed).2.findIdx CacheEv.isRemovedFromList ∧
       (MutationCache.remove cacheHashed mHashed).2.findIdx CacheEv.isCancel <
         (MutationCache.remove cacheHashed mHashed).2.findIdx CacheEv.isRemovedFromMap) := by
  decide

/-- Claim C5 (amended): reset clears only the observer's Mutation reference (the cache, and hence every Mutation's observer set, is left unchanged), resets the derived result to the default idle view, and notifies generic listeners only; the call-scoped onSuccess, onError and onSettled callbacks are never invoked by reset. -/
theorem reset_clears_reference_only {D E V C : Type} (c : MutationCache D E V C)
    (o : MutationObserver D E V C) :
    (MutationObserver.reset c o).1 = c ∧
    (MutationObserver.reset c o).2.1.currentMutation = none ∧
    (MutationObserver.reset c o).2.1.currentResult = deriveResult getDefaultState ∧
    (MutationObserver.reset c o).2.2 =
      List.replicate o.listeners (ObsEv.listenerCall (deriveResult getDefaultState)) := by
  cases h : o.mutateOptions <;>
    simp [MutationObserver.reset, MutationObserver.updateResult, MutationObserver.notify, h]

/-- Concrete mutation whose observer set holds observer 5. -/
def mObserved : MutationRec Nat Nat Nat Nat :=
  { mutationId := 1, mutationHash := none, state := getDefaultState, observers := [5] }

/-- Concrete cache holding mObserved. -/
def cacheObserved : MutationCache Nat Nat Nat Nat :=
  { mutations := [mObserved], mutationsMap := [], mutationId := 1 }

/-- Concrete observer 5 bound to mutation 1 with one generic listener. -/
def obsBound : MutationObserver Nat Nat Nat Nat :=
  { oid := 5, options := none, currentMutation := some 1, mutateOptions := none,
    currentResult := deriveResult getDefaultState, listeners := 1 }

/-- Claim C5 counterexample: after reset, the observer's reference is cleared but the bound Mutation's observer set still contains the observer, contradicting the claim that both sides are cleared. -/
theorem reset_observer_set_cex :
    (MutationObserver.reset cacheObserved obsBound).2.1.currentMutation = none ∧
    (MutationObserver.reset cacheObserved obsBound).1.mutations.map
      (fun m => m.observers) = [[5]] := by
  decide

/-- Claim C7: for an observer that already holds options, a setOptions call whose raw shareable value differs from the stored one fails with the configuration error. -/
theorem setOptions_shareable_immutable {D E V C : Type} (c : MutationCache D E V C)
    (o : MutationObserver D E V C) (p : MutationOptions V) (opts : Option (MutationOptions V))
    (hp : o.options = some p)
    (hdiff : p.shareable ≠ Option.bind opts (fun x => x.shareable)) :
    MutationObserver.setOptions c o opts = Except.error "shareable cannot be changed" := by
  simp [MutationObserver.setOptions, hp, hdiff]

/-- Concrete shareable keyed options. -/
def optsShareableKeyed : MutationOptions Nat :=
  { shareable := some true, mutationKey := some ["k"], vars := none }

/-- Concrete observer constructed with shareable true. -/
def obsShareable : MutationObserver Nat Nat Nat Nat :=
  { oid := 5, options := some optsShareableKeyed, currentMutation := none,
    mutateOptions := none, currentResult := deriveResult getDefaultState, listeners := 0 }

/-- Concrete options flipping shareable to false. -/
def optsNotShareable : MutationOptions Nat :=
  { shareable := some false, mutationKey := some ["k"], vars := none }

/-- Witness for setOptions_shareable_immutable at a concrete input. -/
theorem setOptions_shareable_immutable_witness :
    (obsShareable.options = some optsShareableKeyed ∧
      optsShareableKeyed.shareable ≠
        Option.bind (some optsNotShareable) (fun x => x.shareable)) ∧
    MutationObserver.setOptions cacheNat0 obsShareable (some optsNotShareable) =
      Except.error "shareable cannot be changed" :=
  ⟨⟨rfl, by decide⟩,
    setOptions_shareable_immutable cacheNat0 obsShareable optsShareableKeyed
      (some optsNotShareable) rfl (by decide)⟩

/-- Trace predicate: the event is a call-scoped success callback. -/
def ObsEv.isOnSuccessCb {D E V C : Type} : ObsEv D E V C → Bool
  | ObsEv.onSuccessCb _ _ _ => true
  | _ => false

/-- Trace predicate: the event is a call-scoped error callback. -/
def ObsEv.isOnErrorCb {D E V C : Type} : ObsEv D E V C → Bool
  | ObsEv.onErrorCb _ _ _ => true
  | _ => false

/-- Replicated events all fail a predicate the base event fails. -/
theorem replicate_any_eq_false {α : Type} (n : Nat) (x : α) (p : α → Bool) (h : p x = false) :
    (List.replicate n x).any p = false := by
  induction n with
  | zero => rfl
  | succ k ih => simp [List.replicate_succ, h, ih]

/-- Claim C3: a terminal notification with an active call-scoped bundle dispatches, in order, the call-scoped success or error callback, then the settled callback with the corresponding arguments, then every generic listener with the fresh derived result; at most one of success and error fires for any event type. -/
theorem notify_callback_order {D E V C : Type} (c : MutationCache D E V C)
    (o : MutationObserver D E V C) (mo : MutateOptions)
    (hmo : o.mutateOptions = some mo) (hs : mo.hasOnSuccess = true)
    (he : mo.hasOnError = true) (hst : mo.hasOnSettled = true) :
    ((MutationObserver.onMutationUpdate c o ActionType.success).2 =
      [ObsEv.onSuccessCb (MutationObserver.updateResult c o).currentResult.data
         (MutationObserver.updateResult c o).currentResult.vars
         (MutationObserver.updateResult c o).currentResult.context,
       ObsEv.onSettledCb (MutationObserver.updateResult c o).currentResult.data none
         (MutationObserver.updateResult c o).currentResult.vars
         (MutationObserver.updateResult c o).currentResult.context] ++
      List.replicate o.listeners
        (ObsEv.listenerCall (MutationObserver.updateResult c o).currentResult)) ∧
    ((MutationObserver.onMutationUpdate c o ActionType.error).2 =
      [ObsEv.onErrorCb (MutationObserver.updateResult c o).currentResult.error
         (MutationObserver.updateResult c o).currentResult.vars
         (MutationObserver.updateResult c o).currentResult.context,
       ObsEv.onSettledCb none (MutationObserver.updateResult c o).currentResult.error
         (MutationObserver.updateResult c o).currentResult.vars
         (MutationObserver.updateResult c o).currentResult.context] ++
      List.replicate o.listeners
        (ObsEv.listenerCall (MutationObserver.updateResult c o).currentResult)) ∧
    (∀ a, (((MutationObserver.onMutationUpdate c o a).2.any ObsEv.isOnSuccessCb) &&
           ((MutationObserver.onMutationUpdate c o a).2.any ObsEv.isOnErrorCb)) = false) := by
  refine ⟨?_, ?_, ?_⟩
  · simp [MutationObserver.onMutationUpdate, MutationObserver.notify,
      MutationObserver.updateResult, hmo, hs, hst]
  · simp [MutationObserver.onMutationUpdate, MutationObserver.notify,
      MutationObserver.updateResult, hmo, he, hst]
  · intro a
    cases a <;>
      cases hmo2 : o.mutateOptions <;>
        simp [MutationObserver.onMutationUpdate, MutationObserver.notify,
          MutationObserver.updateResult, hmo2, List.any_append,
          replicate_any_eq_false, ObsEv.isOnSuccessCb, ObsEv.isOnErrorCb]

/-- Concrete observer with a full call-scoped callback bundle and one listener. -/
def obsFullBundle : MutationObserver Nat Nat Nat Nat :=
  { oid := 5, options := none, currentMutation := none,
    mutateOptions := some { hasOnSuccess := true, hasOnError := true, hasOnSettled := true },
    currentResult := deriveResult getDefaultState, listeners := 1 }

/-- Witness for notify_callback_order at a concrete input. -/
theorem notify_callback_order_witness :
    (obsFullBundle.mutateOptions =
        some { hasOnSuccess := true, hasOnError := true, hasOnSettled := true } ∧
      (true : Bool) = true) ∧
    (((MutationObserver.onMutationUpdate cacheNat0 obsFullBundle ActionType.success).2 =
      [ObsEv.onSuccessCb
         (MutationObserver.updateResult cacheNat0 obsFullBundle).currentResult.data
         (MutationObserver.updateResult cacheNat0 obsFullBundle).currentResult.vars
         (MutationObserver.updateResult cacheNat0 obsFullBundle).currentResult.context,
       ObsEv.onSettledCb
         (MutationObserver.updateResult cacheNat0 obsFullBundle).currentResult.data none
         (MutationObserver.updateResult cacheNat0 obsFullBundle).currentResult.vars
         (MutationObserver.updateResult cacheNat0 obsFullBundle).currentResult.context] ++
      List.replicate obsFullBundle.listeners
        (ObsEv.listenerCall
          (MutationObserver.updateResult cacheNat0 obsFullBundle).currentResult)) ∧
    ((MutationObserver.onMutationUpdate cacheNat0 obsFullBundle ActionType.error).2 =
      [ObsEv.onErrorCb
         (MutationObserver.updateResult cacheNat0 obsFullBundle).currentResult.error
         (MutationObserver.updateResult cacheNat0 obsFullBundle).currentResult.vars
         (MutationObserver.updateResult cacheNat0 obsFullBundle).currentResult.context,
       ObsEv.onSettledCb none
         (MutationObserver.updateResult cacheNat0 obsFullBundle).currentResult.error
         (MutationObserver.updateResult cacheNat0 obsFullBundle).currentResult.vars
         (MutationObserver.updateResult cacheNat0 obsFullBundle).currentResult.context] ++
      List.replicate obsFullBundle.listeners
        (ObsEv.listenerCall
          (MutationObserver.updateResult cacheNat0 obsFullBundle).currentResult)) ∧
    (∀ a, (((MutationObserver.onMutationUpdate cacheNat0 obsFullBundle a).2.any
             ObsEv.isOnSuccessCb) &&
           ((MutationObserver.onMutationUpdate cacheNat0 obsFullBundle a).2.any
             ObsEv.isOnErrorCb)) = false)) :=
  ⟨⟨rfl, rfl⟩,
    notify_callback_order cacheNat0 obsFullBundle
      { hasOnSuccess := true, hasOnError := true, hasOnSettled := true } rfl rfl rfl rfl⟩

/-- Every record with the target id in the cache after addObserverTo holds the observer. -/
theorem addObserverTo_mem {D E V C : Type} (c : MutationCache D E V C) (mid oid : Nat) :
    ∀ m ∈ (addObserverTo c mid oid).mutations, m.mutationId = mid → oid ∈ m.observers := by
  intro m hm hid
  simp only [addObserverTo, List.mem_map] at hm
  obtain ⟨x, hx, hfx⟩ := hm
  by_cases hxm : (x.mutationId == mid) = true
  · rw [if_pos hxm] at hfx
    by_cases hmem : oid ∈ x.observers
    · rw [if_pos hmem] at hfx
      exact hfx ▸ hmem
    · rw [if_neg hmem] at hfx
      subst hfx
      simp
  · rw [if_neg hxm] at hfx
    subst hfx
    exact absurd (beq_iff_eq.mpr hid) hxm

/-- Every record with the target id in the cache after removeObserverFrom lacks the observer. -/
theorem removeObserverFrom_not_mem {D E V C : Type} (c : MutationCache D E V C) (mid oid : Nat) :
    ∀ m ∈ (removeObserverFrom c mid oid).mutations, m.mutationId = mid → oid ∉ m.observers := by
  intro m hm hid
  simp only [removeObserverFrom, List.mem_map] at hm
  obtain ⟨x, hx, hfx⟩ := hm
  by_cases hxm : (x.mutationId == mid) = true
  · rw [if_pos hxm] at hfx
    subst hfx
    simp
  · rw [if_neg hxm] at hfx
    subst hfx
    exact absurd (beq_iff_eq.mpr hid) hxm

/-- updateSharedMutation preserves the binding invariant on its non-error outcomes. -/
theorem updateSharedMutation_preserves {D E V C : Type} (c : MutationCache D E V C)
    (o : MutationObserver D E V C) (hInv : ObsInv c o) :
    ∀ c' o', MutationObserver.updateSharedMutation c o = Except.ok (c', o') → ObsInv c' o' := by
  intro c' o' h
  simp only [MutationObserver.updateSharedMutation] at h
  by_cases h1 : (defaultMutationOptions o.options).shareable ≠ some true
  · rw [if_pos h1] at h
    obtain ⟨rfl, rfl⟩ := by simpa using h
    exact hInv
  · rw [if_neg h1] at h
    cases hk : (defaultMutationOptions o.options).mutationKey with
    | none =>
      simp only [hk] at h
      cases h
    | some key =>
      simp only [hk] at h
      by_cases h2 : o.currentMutation =
        MutationCache.get c (hashMutationKeyByOptions key (defaultMutationOptions o.options))
      · rw [if_pos h2] at h
        obtain ⟨rfl, rfl⟩ := by simpa using h
        exact hInv
      · rw [if_neg h2] at h
        cases hget : MutationCache.get c
            (hashMutationKeyByOptions key (defaultMutationOptions o.options)) with
        | none =>
          rw [hget] at h
          obtain ⟨rfl, rfl⟩ := by simpa using h
          intro m hm hcm
          simp [MutationObserver.updateResult] at hcm
        | some mid =>
          rw [hget] at h
          obtain ⟨rfl, rfl⟩ := by simpa using h
          intro m hm hcm
          simp only [MutationObserver.updateResult] at hcm hm
          exact addObserverTo_mem _ _ _ m hm (Option.some.inj hcm).symm

/-- Claim C6 (amended): the binding invariant is preserved by setOptions, updateSharedMutation, mutate and reset; onUnsubscribe is excluded, since it removes the observer from the Mutation's observer set while leaving the observer's reference in place. -/
theorem observer_binding_invariant {D E V C : Type} (c : MutationCache D E V C)
    (o : MutationObserver D E V C) (hInv : ObsInv c o) :
    (∀ opts c' o', MutationObserver.setOptions c o opts = Except.ok (c', o') → ObsInv c' o') ∧
    (∀ c' o', MutationObserver.updateSharedMutation c o = Except.ok (c', o') → ObsInv c' o') ∧
    (∀ vs mo, ObsInv (MutationObserver.mutate c o vs mo).1
      (MutationObserver.mutate c o vs mo).2.1) ∧
    ObsInv (MutationObserver.reset c o).1 (MutationObserver.reset c o).2.1 := by
  refine ⟨?_, updateSharedMutation_preserves c o hInv, ?_, ?_⟩
  · intro opts c' o' h
    simp only [MutationObserver.setOptions] at h
    cases ho : o.options with
    | none =>
      simp only [ho] at h
      exact updateSharedMutation_preserves c
        { o with options := some (defaultMutationOptions opts) }
        (fun m hm hcm => hInv m hm hcm) c' o' h
    | some p =>
      simp only [ho] at h
      by_cases hd : p.shareable ≠ Option.bind opts (fun x => x.shareable)
      · rw [if_pos hd] at h
        cases h
      · rw [if_neg hd] at h
        exact updateSharedMutation_preserves c
          { o with options := some (defaultMutationOptions opts) }
          (fun m hm hcm => hInv m hm hcm) c' o' h
  · intro vs mo m hm hcm
    simp only [MutationObserver.mutate] at hm hcm ⊢
    exact addObserverTo_mem _ _ _ m hm (Option.some.inj hcm).symm
  · intro m hm hcm
    simp only [MutationObserver.reset, MutationObserver.updateResult] at hcm
    cases hcm

/-- Witness for observer_binding_invariant at a concrete input. -/
theorem observer_binding_invariant_witness :
    ObsInv cacheObserved obsBound ∧
    ((∀ opts c' o', MutationObserver.setOptions cacheObserved obsBound opts =
        Except.ok (c', o') → ObsInv c' o') ∧
     (∀ c' o', MutationObserver.updateSharedMutation cacheObserved obsBound =
        Except.ok (c', o') → ObsInv c' o') ∧
     (∀ vs mo, ObsInv (MutationObserver.mutate cacheObserved obsBound vs mo).1
        (MutationObserver.mutate cacheObserved obsBound vs mo).2.1) ∧
     ObsInv (MutationObserver.reset cacheObserved obsBound).1
        (MutationObserver.reset cacheObserved obsBound).2.1) :=
  ⟨by decide, observer_binding_invariant cacheObserved obsBound (by decide)⟩

/-- Concrete observer 5 bound to mutation 1 with no remaining listeners. -/
def obsBoundNoListeners : MutationObserver Nat Nat Nat Nat :=
  { oid := 5, options := none, currentMutation := some 1, mutateOptions := none,
    currentResult := deriveResult getDefaultState, listeners := 0 }

/-- Claim C6 counterexample: onUnsubscribe on the last unsubscribe removes the observer from the bound Mutation's observer set but leaves the observer's reference, so the two sides are not updated together and the invariant breaks. -/
theorem observer_binding_invariant_cex :
    ObsInv cacheObserved obsBoundNoListeners ∧
    ¬ ObsInv (MutationObserver.onUnsubscribe cacheObserved obsBoundNoListeners).1
      (MutationObserver.onUnsubscribe cacheObserved obsBoundNoListeners).2 := by
  decide

/-- The ids recorded by continue events along a trace, in order. -/
def continuedIds (t : List CacheEv) : List Nat :=
  t.filterMap (fun e =>
    match e with
    | CacheEv.continued mid _ => some mid
    | _ => none)

/-- The sequential resume fold over an ok accumulator continues every listed mutation in order, swallowing every rejection. -/
theorem resume_foldl {D E V C : Type} (f : Nat → Bool) (l : List (MutationRec D E V C))
    (t : List CacheEv) :
    l.foldl (resumeStep f) (Except.ok (), t) =
      (Except.ok (), t ++ l.map (fun m => CacheEv.continued m.mutationId (f m.mutationId))) := by
  induction l generalizing t with
  | nil => simp
  | cons m rest ih =>
    have hstep : resumeStep f (Except.ok (), t) m =
        ((Except.ok () : Except String Unit),
          t ++ [CacheEv.continued m.mutationId (f m.mutationId)]) := by
      cases hf : f m.mutationId <;> simp [resumeStep, continueMutation, hf]
    simp [List.foldl_cons, hstep, ih]

/-- continuedIds of a pure continue-event list is the projected id list. -/
theorem continuedIds_mapped {D E V C : Type} (f : Nat → Bool) (l : List (MutationRec D E V C)) :
    continuedIds (l.map (fun m => CacheEv.continued m.mutationId (f m.mutationId))) =
      l.map (fun m => m.mutationId) := by
  induction l with
  | nil => rfl
  | cons m rest ih => simp [continuedIds, List.filterMap_cons] at ih ⊢; exact ih

/-- Claim C8: resumePausedMutations snapshots exactly the paused mutations at call time and continues them in insertion order regardless of individual outcomes (a rejection neither stops the chain nor is re-surfaced), and onFocus and onOnline each just invoke resumePausedMutations. -/
theorem resumePausedMutations_spec {D E V C : Type} (c : MutationCache D E V C) :
    (∀ f, (MutationCache.resumePausedMutations c f).1 = Except.ok ()) ∧
    (∀ f, continuedIds (MutationCache.resumePausedMutations c f).2 =
      (c.mutations.filter (fun x => x.state.isPaused)).map (fun m => m.mutationId)) ∧
    (∀ f, MutationCache.onFocus c f = MutationCache.resumePausedMutations c f ∧
      MutationCache.onOnline c f = MutationCache.resumePausedMutations c f) := by
  refine ⟨fun f => ?_, fun f => ?_, fun f => ⟨rfl, rfl⟩⟩
  · simp [MutationCache.resumePausedMutations, resume_foldl]
  · simp [MutationCache.resumePausedMutations, resume_foldl, continuedIds,
      List.filterMap_cons, List.filterMap_append]
    have := continuedIds_mapped f (c.mutations.filter (fun x => x.state.isPaused))
    simpa [continuedIds] using this

/-- The ordered collection after removal, independent of the hash branch. -/
theorem remove_fst_mutations {D E V C : Type} (c : MutationCache D E V C)
    (m : MutationRec D E V C) :
    (MutationCache.remove c m).1.mutations =
      c.mutations.filter (fun x => x.mutationId != m.mutationId) := by
  rcases m with ⟨mid, mh, st, obs⟩
  cases mh <;> rfl

/-- A remove trace contributes no flush when it runs inside an open batch, and leaves the depth unchanged. -/
theorem remove_trace_flushes {D E V C : Type} (c : MutationCache D E V C)
    (m : MutationRec D E V C) (rest : List CacheEv) (d : Nat) (hd : 1 ≤ d) :
    flushes ((MutationCache.remove c m).2 ++ rest) d = flushes rest d := by
  rcases m with ⟨mid, mh, st, obs⟩
  have hne : ¬(d + 1 = 1) := by omega
  cases mh <;> simp [MutationCache.remove, MutationCache.notify, flushes, hne]

/-- Removing every snapshot element inside an open batch never flushes before the final exit. -/
theorem clearGo_flushes {D E V C : Type} (l : List (MutationRec D E V C))
    (c : MutationCache D E V C) :
    flushes ((MutationCache.clearGo l c).2 ++ [CacheEv.batchExit]) 1 = 1 := by
  induction l generalizing c with
  | nil => simp [MutationCache.clearGo, flushes]
  | cons m rest ih =>
    simp only [MutationCache.clearGo]
    rw [List.append_assoc, remove_trace_flushes _ _ _ _ (le_refl 1)]
    exact ih _

/-- The mutations left after removing every element of a snapshot list. -/
theorem clearGo_mutations {D E V C : Type} (l : List (MutationRec D E V C))
    (c : MutationCache D E V C) :
    (MutationCache.clearGo l c).1.mutations =
      c.mutations.filter (fun x => l.all (fun m => x.mutationId != m.mutationId)) := by
  induction l generalizing c with
  | nil => simp [MutationCache.clearGo]
  | cons m rest ih =>
    simp only [MutationCache.clearGo]
    rw [ih, remove_fst_mutations, List.filter_filter]
    apply List.filter_congr
    intro x _
    simp [Bool.and_comm]

/-- Claim C9: clear removes every live Mutation (getAll is empty afterwards) inside one outer scheduler batch, so exactly one flush occurs regardless of how many mutations were present. -/
theorem clear_batched {D E V C : Type} (c : MutationCache D E V C) :
    (MutationCache.clear c).1.mutations = [] ∧ flushes (MutationCache.clear c).2 0 = 1 := by
  constructor
  · show (MutationCache.clearGo c.mutations c).1.mutations = []
    rw [clearGo_mutations]
    rw [List.filter_eq_nil_iff]
    intro x hx hall
    have hx2 := (List.all_eq_true.mp hall) x hx
    simp at hx2
  · show flushes (CacheEv.batchEnter ::
      ((MutationCache.clearGo c.mutations c).2 ++ [CacheEv.batchExit])) 0 = 1
    rw [flushes]
    exact clearGo_flushes c.mutations c

/-- find? for a key over a list from which that key was filtered out is none. -/
theorem find?_filter_ne (l : List (MutationKey × Nat)) (k : MutationKey) :
    (l.filter (fun e => e.1 != k)).find? (fun e => e.1 == k) = none := by
  induction l with
  | nil => rfl
  | cons e rest ih =>
    by_cases he : (e.1 != k) = true
    · have hek : (e.1 == k) = false := by
        simpa [bne] using he
      simp [List.filter_cons, he, List.find?_cons, hek, ih]
    · simp [List.filter_cons, he, ih]

/-- find? skips a prefix in which it finds nothing. -/
theorem find?_append_none {α : Type} (l1 l2 : List α) (p : α → Bool)
    (h : l1.find? p = none) : (l1 ++ l2).find? p = l2.find? p := by
  induction l1 with
  | nil => rfl
  | cons a rest ih =>
    by_cases ha : p a = true
    · simp [List.find?_cons, ha] at h
    · have hpa : p a = false := by simpa using ha
      simp only [List.find?_cons, hpa] at h
      simp only [List.cons_append, List.find?_cons, hpa]
      exact ih h

/-- Lookup after a replacement write finds the new entry. -/
theorem find?_mapSet (m : List (MutationKey × Nat)) (k : MutationKey) (v : Nat) :
    (mapSet m k v).find? (fun e => e.1 == k) = some (k, v) := by
  rw [mapSet, find?_append_none _ _ _ (find?_filter_ne m k)]
  simp [List.find?_cons]

/-- The cache counter after build, independent of the hash branch. -/
theorem build_fst_counter {D E V C : Type} (c : MutationCache D E V C)
    (options : MutationOptions V) (state : Option (MutationState D E V C)) :
    (MutationCache.build c options state).1.mutationId = c.mutationId + 1 := by
  obtain ⟨sh, mk, vv⟩ := options
  cases sh with
  | none => rfl
  | some b =>
    cases b with
    | false => rfl
    | true =>
      cases mk with
      | none => rfl
      | some key => rfl

/-- The ordered collection after build, independent of the hash branch. -/
theorem build_fst_mutations {D E V C : Type} (c : MutationCache D E V C)
    (options : MutationOptions V) (state : Option (MutationState D E V C)) :
    (MutationCache.build c options state).1.mutations =
      c.mutations ++ [(MutationCache.build c options state).2] := by
  obtain ⟨sh, mk, vv⟩ := options
  cases sh with
  | none => rfl
  | some b =>
    cases b with
    | false => rfl
    | true =>
      cases mk with
      | none => rfl
      | some key => rfl

/-- Claim C10: after two shareable keyed builds carrying the same hash (so the index points at the second), removing the first deletes the hash-index entry unconditionally: get returns nothing even though the second Mutation is still in the ordered collection. -/
theorem remove_deletes_hash_unconditionally {D E V C : Type} (c : MutationCache D E V C)
    (opts : MutationOptions V) (k : MutationKey)
    (hsh : opts.shareable = some true) (hk : opts.mutationKey = some k) :
    MutationCache.get
      (MutationCache.remove
        (MutationCache.build (MutationCache.build c opts none).1 opts none).1
        (MutationCache.build c opts none).2).1 k = none ∧
    (MutationCache.build (MutationCache.build c opts none).1 opts none).2.mutationId ∈
      (MutationCache.remove
        (MutationCache.build (MutationCache.build c opts none).1 opts none).1
        (MutationCache.build c opts none).2).1.mutations.map (fun m => m.mutationId) := by
  have hm1hash : (MutationCache.build c opts none).2.mutationHash = some k := by
    simp [MutationCache.build, hsh, hk, hashMutationKeyByOptions]
  constructor
  · have hremmap :
        (MutationCache.remove
          (MutationCache.build (MutationCache.build c opts none).1 opts none).1
          (MutationCache.build c opts none).2).1.mutationsMap =
        mapDelete
          (MutationCache.build (MutationCache.build c opts none).1 opts none).1.mutationsMap
          k := by
      simp only [MutationCache.remove, hm1hash]
    rw [MutationCache.get, hremmap, mapDelete, find?_filter_ne]
    rfl
  · rw [remove_fst_mutations, build_fst_mutations]
    apply List.mem_map.mpr
    refine ⟨(MutationCache.build (MutationCache.build c opts none).1 opts none).2, ?_, rfl⟩
    apply List.mem_filter.mpr
    refine ⟨List.mem_append_right _ (List.mem_singleton.mpr rfl), ?_⟩
    have h2 : (MutationCache.build (MutationCache.build c opts none).1 opts none).2.mutationId =
        (MutationCache.build c opts none).1.mutationId + 1 := rfl
    have h1 : (MutationCache.build c opts none).2.mutationId = c.mutationId + 1 := rfl
    have h0 : (MutationCache.build c opts none).1.mutationId = c.mutationId + 1 :=
      build_fst_counter _ _ _
    simp only [h2, h1, h0, bne_iff_ne, ne_eq]
    omega

/-- Witness for remove_deletes_hash_unconditionally at a concrete input. -/
theorem remove_deletes_hash_unconditionally_witness :
    (optsShareableKeyed.shareable = some true ∧
      optsShareableKeyed.mutationKey = some ["k"]) ∧
    (MutationCache.get
      (MutationCache.remove
        (MutationCache.build
          (MutationCache.build cacheNat0 optsShareableKeyed none).1 optsShareableKeyed none).1
        (MutationCache.build cacheNat0 optsShareableKeyed none).2).1 ["k"] = none ∧
    (MutationCache.build
      (MutationCache.build cacheNat0 optsShareableKeyed none).1 optsShareableKeyed
        none).2.mutationId ∈
      (MutationCache.remove
        (MutationCache.build
          (MutationCache.build cacheNat0 optsShareableKeyed none).1 optsShareableKeyed none).1
        (MutationCache.build cacheNat0 optsShareableKeyed none).2).1.mutations.map
        (fun m => m.mutationId)) :=
  ⟨⟨rfl, rfl⟩,
    remove_deletes_hash_unconditionally cacheNat0 optsShareableKeyed ["k"] rfl rfl⟩

/-- The id of the record returned by build is one past the incoming counter. -/
theorem build_snd_id {D E V C : Type} (c : MutationCache D E V C)
    (options : MutationOptions V) (state : Option (MutationState D E V C)) :
    (MutationCache.build c options state).2.mutationId = c.mutationId + 1 := rfl

/-- The id of the Mutation built by mutate is one past the cache counter. -/
theorem mutate_snd_id {D E V C : Type} (c : MutationCache D E V C)
    (o : MutationObserver D E V C) (vs : Option V) (mo : Option MutateOptions) :
    (MutationObserver.mutate c o vs mo).2.2.mutationId = c.mutationId + 1 := by
  cases hcm : o.currentMutation <;>
    simp [MutationObserver.mutate, hcm, removeObserverFrom, build_snd_id]

/-- The cache counter after mutate. -/
theorem mutate_fst_counter {D E V C : Type} (c : MutationCache D E V C)
    (o : MutationObserver D E V C) (vs : Option V) (mo : Option MutateOptions) :
    (MutationObserver.mutate c o vs mo).1.mutationId = c.mutationId + 1 := by
  cases hcm : o.currentMutation <;>
    simp [MutationObserver.mutate, hcm, removeObserverFrom, addObserverTo, build_fst_counter]

/-- mutate leaves the observer's options and identity unchanged and binds it to the fresh id. -/
theorem mutate_obs_components {D E V C : Type} (c : MutationCache D E V C)
    (o : MutationObserver D E V C) (vs : Option V) (mo : Option MutateOptions) :
    (MutationObserver.mutate c o vs mo).2.1.options = o.options ∧
    (MutationObserver.mutate c o vs mo).2.1.oid = o.oid ∧
    (MutationObserver.mutate c o vs mo).2.1.currentMutation = some (c.mutationId + 1) := by
  cases hcm : o.currentMutation <;>
    simp [MutationObserver.mutate, hcm, removeObserverFrom, build_snd_id]

/-- The hash index after a shareable keyed mutate registers the fresh id under the key. -/
theorem mutate_fst_map {D E V C : Type} (c : MutationCache D E V C)
    (o : MutationObserver D E V C) (opts : MutationOptions V) (k : MutationKey)
    (vs : Option V) (mo : Option MutateOptions)
    (ho : o.options = some opts) (hsh : opts.shareable = some true)
    (hk : opts.mutationKey = some k) :
    (MutationObserver.mutate c o vs mo).1.mutationsMap =
      mapSet c.mutationsMap k (c.mutationId + 1) := by
  cases hcm : o.currentMutation <;>
    simp [MutationObserver.mutate, MutationCache.build, MutationCache.add,
      defaultMutationOptions, addObserverTo, removeObserverFrom, hashMutationKeyByOptions,
      ho, hsh, hk, hcm]

/-- The observer-adding map step preserves the record id. -/
theorem addObserver_apply_id {D E V C : Type} (mid oid : Nat) (x : MutationRec D E V C) :
    (if x.mutationId == mid then
        if oid ∈ x.observers then x else { x with observers := x.observers ++ [oid] }
      else x).mutationId = x.mutationId := by
  by_cases h1 : (x.mutationId == mid) = true
  · by_cases h2 : oid ∈ x.observers
    · rw [if_pos h1, if_pos h2]
    · rw [if_pos h1, if_neg h2]
  · rw [if_neg h1]

/-- After detaching from a previously bound mutation, building a fresh one and attaching to it, no record carrying the old id holds the observer. -/
theorem detach_after_build_add {D E V C : Type} (c : MutationCache D E V C)
    (bo : MutationOptions V) (mid oid : Nat) (hle : mid ≤ c.mutationId) :
    ∀ m ∈ (addObserverTo (MutationCache.build (removeObserverFrom c mid oid) bo none).1
        (MutationCache.build (removeObserverFrom c mid oid) bo none).2.mutationId
        oid).mutations,
      m.mutationId = mid → oid ∉ m.observers := by
  intro m hm hid
  have hnew : (MutationCache.build (removeObserverFrom c mid oid) bo none).2.mutationId =
      c.mutationId + 1 := rfl
  simp only [addObserverTo, List.mem_map] at hm
  obtain ⟨x, hx, hfx⟩ := hm
  have hmid : m.mutationId = x.mutationId := by
    rw [← hfx]
    exact addObserver_apply_id _ _ x
  rw [build_fst_mutations] at hx
  rcases List.mem_append.mp hx with hx1 | hx2
  · by_cases hxm : (x.mutationId ==
        (MutationCache.build (removeObserverFrom c mid oid) bo none).2.mutationId) = true
    · exfalso
      have hxid : x.mutationId = c.mutationId + 1 := by
        have hb := beq_iff_eq.mp hxm
        rw [hnew] at hb
        exact hb
      omega
    · rw [if_neg hxm] at hfx
      subst hfx
      exact removeObserverFrom_not_mem c mid oid x hx1 hid
  · exfalso
    have hxeq : x = (MutationCache.build (removeObserverFrom c mid oid) bo none).2 :=
      List.mem_singleton.mp hx2
    have hxid : x.mutationId = c.mutationId + 1 := by
      rw [hxeq]
      exact hnew
    omega

/-- Claim C2: mutate always detaches from whatever Mutation is bound and asks the cache to build a brand-new Mutation with a fresh, strictly larger id, even for shareable observers: two successive mutate calls yield the ids counter+1 and counter+2 (distinct, and distinct from every pre-existing id), and afterwards get at the shared hash returns the most recently built id. -/
theorem mutate_builds_fresh {D E V C : Type} (c : MutationCache D E V C)
    (o : MutationObserver D E V C) (opts : MutationOptions V) (k : MutationKey)
    (v1 v2 : Option V) (mo1 mo2 : Option MutateOptions)
    (ho : o.options = some opts) (hsh : opts.shareable = some true)
    (hk : opts.mutationKey = some k)
    (hwf : ∀ m ∈ c.mutations, m.mutationId ≤ c.mutationId)
    (hcur : ∀ mid, o.currentMutation = some mid → mid ≤ c.mutationId) :
    (MutationObserver.mutate c o v1 mo1).2.2.mutationId = c.mutationId + 1 ∧
    (MutationObserver.mutate (MutationObserver.mutate c o v1 mo1).1
        (MutationObserver.mutate c o v1 mo1).2.1 v2 mo2).2.2.mutationId = c.mutationId + 2 ∧
    (∀ m ∈ c.mutations, m.mutationId ≠ (MutationObserver.mutate c o v1 mo1).2.2.mutationId) ∧
    MutationCache.get
      (MutationObserver.mutate (MutationObserver.mutate c o v1 mo1).1
        (MutationObserver.mutate c o v1 mo1).2.1 v2 mo2).1 k = some (c.mutationId + 2) ∧
    (∀ mid, o.currentMutation = some mid →
      ∀ m ∈ (MutationObserver.mutate c o v1 mo1).1.mutations,
        m.mutationId = mid → o.oid ∉ m.observers) := by
  refine ⟨mutate_snd_id c o v1 mo1, ?_, ?_, ?_, ?_⟩
  · rw [mutate_snd_id, mutate_fst_counter]
  · intro m hm
    rw [mutate_snd_id]
    have := hwf m hm
    omega
  · have hopts2 : (MutationObserver.mutate c o v1 mo1).2.1.options = some opts := by
      rw [(mutate_obs_components c o v1 mo1).1, ho]
    rw [MutationCache.get,
      mutate_fst_map _ _ opts k v2 mo2 hopts2 hsh hk,
      find?_mapSet, mutate_fst_counter]
    rfl
  · intro mid hcmo m hm hid
    simp only [MutationObserver.mutate, hcmo] at hm
    exact detach_after_build_add c _ mid o.oid (hcur mid hcmo) m hm hid

/-- Witness for mutate_builds_fresh at a concrete input. -/
theorem mutate_builds_fresh_witness :
    (obsShareable.options = some optsShareableKeyed ∧
      optsShareableKeyed.shareable = some true ∧
      optsShareableKeyed.mutationKey = some ["k"] ∧
      (∀ m ∈ cacheNat0.mutations, m.mutationId ≤ cacheNat0.mutationId) ∧
      (∀ mid, obsShareable.currentMutation = some mid → mid ≤ cacheNat0.mutationId)) ∧
    ((MutationObserver.mutate cacheNat0 obsShareable none none).2.2.mutationId =
        cacheNat0.mutationId + 1 ∧
     (MutationObserver.mutate (MutationObserver.mutate cacheNat0 obsShareable none none).1
        (MutationObserver.mutate cacheNat0 obsShareable none none).2.1 none
        none).2.2.mutationId = cacheNat0.mutationId + 2 ∧
     (∀ m ∈ cacheNat0.mutations, m.mutationId ≠
        (MutationObserver.mutate cacheNat0 obsShareable none none).2.2.mutationId) ∧
     MutationCache.get
       (MutationObserver.mutate (MutationObserver.mutate cacheNat0 obsShareable none none).1
         (MutationObserver.mutate cacheNat0 obsShareable none none).2.1 none none).1 ["k"] =
       some (cacheNat0.mutationId + 2) ∧
     (∀ mid, obsShareable.currentMutation = some mid →
       ∀ m ∈ (MutationObserver.mutate cacheNat0 obsShareable none none).1.mutations,
         m.mutationId = mid → obsShareable.oid ∉ m.observers)) :=
  ⟨⟨rfl, rfl, rfl, by decide, fun mid h => by cases h⟩,
    mutate_builds_fresh cacheNat0 obsShareable optsShareableKeyed ["k"] none none none none
      rfl rfl rfl (by decide) (fun mid h => by cases h)⟩
